import Mathlib

/-!
# SmartBunk — verification of the attendance projection engine

Shallow embedding of the SmartBunk attendance tracker.

* `src/types.ts` — data model (`DayOfWeek`, `Subject`, `CalculationResult`,
  `AppSettings`).
* `src/constants.ts` — configuration constants (`CHAOS_FACTOR`,
  `TARGET_PERCENTAGE`, holiday table).
* `src/unnamed/part_000` — the `App` component: subject-list initialisation
  from persisted storage and the `checkNotifications` loop body.

The calculation utility module (`utils/calculations.ts`: `isEventDay`,
the day-counting helper and `calculate`) is referenced by the `App`
component but its source is not present; those functions are modelled
from the spec (§4.1, §4.2), as marked on each definition.

Calendar dates are modelled as local-calendar day numbers (`ℕ`),
anchored so that day `0` falls on a Sunday; `weekdayOf` then mirrors
`Date.getDay()` on the local calendar.  JavaScript floating-point
arithmetic is modelled by exact rational arithmetic (`ℚ`), following the
spec's exact formulas.
-/

namespace SmartBunk

/-- Weekday enumeration from `src/types.ts` (`enum DayOfWeek`). -/
inductive DayOfWeek where
  | Sunday
  | Monday
  | Tuesday
  | Wednesday
  | Thursday
  | Friday
  | Saturday
deriving DecidableEq

/-- The numeric value of each `DayOfWeek` enumerator, as assigned by the
TypeScript enum (`Sunday = 0`, …, `Saturday = 6`). -/
def DayOfWeek.toNat : DayOfWeek → ℕ
  | .Sunday => 0
  | .Monday => 1
  | .Tuesday => 2
  | .Wednesday => 3
  | .Thursday => 4
  | .Friday => 5
  | .Saturday => 6

/-- Attendance record status from `src/types.ts` (`'PRESENT' | 'ABSENT'`). -/
inductive RecordStatus where
  | PRESENT
  | ABSENT
deriving DecidableEq

/-- `AttendanceRecord` from `src/types.ts`; the ISO date string is modelled
as a day number. -/
structure AttendanceRecord where
  id : String
  date : ℕ
  status : RecordStatus
  timestamp : ℕ
deriving DecidableEq

/-- `Subject` from `src/types.ts`.  `startDate`/`endDate` are ISO date
strings modelled as day numbers; the optional `startTime` `"HH:mm"` string
is modelled as the parsed `(hours, minutes)` pair. -/
structure Subject where
  id : String
  name : String
  attended : ℕ
  total : ℕ
  schedule : List DayOfWeek
  startDate : ℕ
  endDate : ℕ
  startTime : Option (ℕ × ℕ)
  history : List AttendanceRecord
  initialAttended : Option ℕ
  initialTotal : Option ℕ
deriving DecidableEq

/-- `AttendanceStatus` from `src/types.ts`. -/
inductive AttendanceStatus where
  | SAFE
  | DANGER
  | IMPOSSIBLE
deriving DecidableEq

/-- `CalculationResult` from `src/types.ts`.  Percentages are fractions
(`ℚ`); the count fields are integers. -/
structure CalculationResult where
  status : AttendanceStatus
  percentage : ℚ
  classesHeldSoFar : ℕ
  classesLeftRaw : ℕ
  totalSemesterClasses : ℕ
  bunksAvailable : ℕ
  classesToRecover : ℕ
  maxPossiblePercentage : ℚ
deriving DecidableEq

/-- `AppSettings` from `src/types.ts`; the `"HH:mm"` daily-reminder time is
modelled as the parsed `(hours, minutes)` pair, `none` for an empty (falsy)
string. -/
structure AppSettings where
  notificationsEnabled : Bool
  dailyReminder : Bool
  dailyReminderTime : Option (ℕ × ℕ)
  classReminders : Bool
  targetPercentage : ℚ
deriving DecidableEq

/-- `CHAOS_FACTOR` from `src/constants.ts`: 95% of classes actually happen. -/
def CHAOS_FACTOR : ℚ := 0.95

/-- `TARGET_PERCENTAGE` from `src/constants.ts`. -/
def TARGET_PERCENTAGE : ℚ := 0.75

/-- `MAX_ABSENCE_PERCENTAGE` from `src/constants.ts`. -/
def MAX_ABSENCE_PERCENTAGE : ℚ := 0.25

/-- Local-calendar weekday of a day number (day `0` is a Sunday), the
model of `Date.getDay()` under the chosen anchoring. -/
def weekdayOf (d : ℕ) : ℕ := d % 7

/-- Modelled from the spec: `isEventDay(date, subject)` from the absent
`utils/calculations.ts` (§4.1), returning the `isValid` flag.  A date is a
class day iff it lies within `[startDate, endDate]` inclusive, its local
weekday is a member of `schedule`, and it is not in the holiday table
(`holidays` is the configured holiday list, e.g. `HOLIDAYS_2026`). -/
def isEventDay (holidays : List ℕ) (date : ℕ) (s : Subject) : Bool :=
  if date < s.startDate ∨ s.endDate < date then false
  else if ¬ (s.schedule.map DayOfWeek.toNat).contains (weekdayOf date) then false
  else if holidays.contains date then false
  else true

/-- Modelled from the spec: the day-counting helper of §4.1 from the absent
`utils/calculations.ts`: the number of valid class days in `[lo, hi]`
(0 when `lo > hi`). -/
def countValidDays (holidays : List ℕ) (s : Subject) (lo hi : ℕ) : ℕ :=
  ((List.range' lo (hi + 1 - lo)).filter (fun d => isEventDay holidays d s)).length

/-- Modelled from the spec (§4.2 step 2, first half): the count of valid
scheduled days strictly after `today` through `subject.endDate`. -/
def futureDaysOf (holidays : List ℕ) (s : Subject) (today : ℕ) : ℕ :=
  countValidDays holidays s (today + 1) s.endDate

/-- Modelled from the spec (§4.2 step 2): `classesLeftRaw`, the future
valid-day count scaled by the realism factor and truncated to an integer. -/
def classesLeftRawOf (holidays : List ℕ) (chaos : ℚ) (s : Subject) (today : ℕ) : ℕ :=
  (⌊chaos * (futureDaysOf holidays s today : ℚ)⌋).toNat

/-- Modelled from the spec (§4.2 step 3): `totalSemesterClasses`. -/
def totalSemesterOf (holidays : List ℕ) (chaos : ℚ) (s : Subject) (today : ℕ) : ℕ :=
  s.total + classesLeftRawOf holidays chaos s today

/-- Modelled from the spec (§4.2 step 4): `percentage = attended / total`,
0 when `total = 0`. -/
def percentageOf (s : Subject) : ℚ :=
  if s.total = 0 then 0 else (s.attended : ℚ) / (s.total : ℚ)

/-- Modelled from the spec (§4.2 step 5): `maxPossiblePercentage`,
0 when the denominator is 0. -/
def maxPossibleOf (holidays : List ℕ) (chaos : ℚ) (s : Subject) (today : ℕ) : ℚ :=
  if totalSemesterOf holidays chaos s today = 0 then 0
  else ((s.attended : ℚ) + (classesLeftRawOf holidays chaos s today : ℚ)) /
    (totalSemesterOf holidays chaos s today : ℚ)

/-- Modelled from the spec (§4.2 step 6): the status classification. -/
def statusOf (holidays : List ℕ) (chaos : ℚ) (s : Subject) (target : ℚ) (today : ℕ) :
    AttendanceStatus :=
  if maxPossibleOf holidays chaos s today < target then .IMPOSSIBLE
  else if percentageOf s < target then .DANGER
  else .SAFE

/-- Modelled from the spec (§4.2 step 7): `bunksAvailable`, the floor of
`attended / target − total` clamped to `[0, classesLeftRaw]`, meaningful
(non-zero) only when currently at or above target. -/
def bunksOf (holidays : List ℕ) (chaos : ℚ) (s : Subject) (target : ℚ) (today : ℕ) : ℕ :=
  if target ≤ percentageOf s then
    (max 0 (min (⌊(s.attended : ℚ) / target⌋ - (s.total : ℤ))
      ((classesLeftRawOf holidays chaos s today : ℕ) : ℤ))).toNat
  else 0

/-- Modelled from the spec (§4.2 step 7): `classesToRecover`, the ceiling of
`(target·total − attended) / (1 − target)` floored at 0 and clamped to at
most `classesLeftRaw`, meaningful (non-zero) only when below target. -/
def recoverOf (holidays : List ℕ) (chaos : ℚ) (s : Subject) (target : ℚ) (today : ℕ) : ℕ :=
  if percentageOf s < target then
    (min (max 0 ⌈(target * (s.total : ℚ) - (s.attended : ℚ)) / (1 - target)⌉)
      ((classesLeftRawOf holidays chaos s today : ℕ) : ℤ)).toNat
  else 0

/-- Modelled from the spec: `calculate(subject, targetPercentage, today)`
from the absent `utils/calculations.ts` (§4.2), assembled from the step
functions above.  The holiday table and the realism factor are the
configuration inputs of §6. -/
def calculate (holidays : List ℕ) (chaos : ℚ) (s : Subject) (target : ℚ) (today : ℕ) :
    CalculationResult :=
  { status := statusOf holidays chaos s target today
    percentage := percentageOf s
    classesHeldSoFar := s.total
    classesLeftRaw := classesLeftRawOf holidays chaos s today
    totalSemesterClasses := totalSemesterOf holidays chaos s today
    bunksAvailable := bunksOf holidays chaos s target today
    classesToRecover := recoverOf holidays chaos s target today
    maxPossiblePercentage := maxPossibleOf holidays chaos s today }

/-! ## Subject-list initialisation (`App`, `src/unnamed/part_000`)

`useState` initialiser for `subjects`: the persisted JSON is parsed; a
missing value yields `[]`, a non-array value yields `[]`, and an array is
mapped so that every record whose `id` is falsy (absent / empty string,
both modelled by `""`) receives a fresh
`restored-${Date.now()}-${random}` identifier. -/

/-- The parsed persisted subject data: `missing` when `localStorage`
returned `null` (the code then parses the literal `[]`), `array` when the
JSON parsed to an array, `nonArray` otherwise. -/
inductive ParsedStorage where
  | missing
  | array (xs : List Subject)
  | nonArray

/-- The fresh identifier assigned to a restored record, from
`src/unnamed/part_000`: `restored-` followed by a timestamp-and-random
seed, modelled as an arbitrary seed string. -/
def freshId (seed : String) : String := "restored-" ++ seed

/-- The `subjects` `useState` initialiser of the `App` component
(`src/unnamed/part_000`): missing or non-array persisted data becomes the
empty list, and each stored record with a falsy `id` gets a fresh one
(`seeds` supplies the nondeterministic seed for each position). -/
def initSubjects (saved : ParsedStorage) (seeds : ℕ → String) : List Subject :=
  match saved with
  | .missing => []
  | .nonArray => []
  | .array xs =>
      xs.enum.map fun p =>
        { p.2 with id := if p.2.id = "" then freshId (seeds p.1) else p.2.id }

/-- The default `AppSettings` of the `App` component
(`src/unnamed/part_000`), used when no saved settings exist. -/
def defaultAppSettings : AppSettings :=
  { notificationsEnabled := false
    dailyReminder := true
    dailyReminderTime := some (20, 0)
    classReminders := true
    targetPercentage := 0.75 }

/-! ## Notification engine (`checkNotifications`, `src/unnamed/part_000`)

The loop body keeps two refs across calls: `lastDailyReminderRef` (the
date string of the last fired daily reminder, initially `''`, modelled by
`Option ℕ`) and `sentClassRemindersRef` (the set of `` `${sub.id}-${todayStr}` ``
keys already fired, modelled as a list of `(id, day)` pairs — the ISO
date has fixed length, so the key string determines the pair). -/

/-- The two mutable refs of the notification engine. -/
structure NotifState where
  lastDaily : Option ℕ
  sent : List (String × ℕ)
deriving DecidableEq

/-- The cache reset at the top of `checkNotifications`: the sent set is
cleared when `lastDailyReminderRef.current` is non-empty and differs from
today's date string. -/
def clearIfDayChanged (today : ℕ) (st : NotifState) : NotifState :=
  match st.lastDaily with
  | none => st
  | some d => if d ≠ today then { lastDaily := some d, sent := [] } else st

/-- Part 1 of `checkNotifications` (the daily reminder): when enabled, the
reminder time is set, the clock matches it and no daily reminder was fired
today, a daily notification fires and `lastDailyReminderRef` becomes
today. -/
def dailyStep (settings : AppSettings) (today : ℕ) (nowH nowM : ℕ)
    (st : NotifState) : NotifState :=
  if settings.dailyReminder then
    match settings.dailyReminderTime with
    | none => st
    | some t =>
        if nowH = t.1 ∧ nowM = t.2 then
          if st.lastDaily ≠ some today then { lastDaily := some today, sent := st.sent }
          else st
        else st
  else st

/-- Part 2 of `checkNotifications`, one subject of the `forEach`: a class
reminder fires when the subject has a start time, today is a valid event
day, exactly 15 minutes remain before the start time, and the key is not
in the sent set; the key is then added.  Returns the new sent set and the
fired keys. -/
def classReminderStep (holidays : List ℕ) (today : ℕ) (nowMin : ℤ)
    (sent : List (String × ℕ)) (sub : Subject) :
    List (String × ℕ) × List (String × ℕ) :=
  match sub.startTime with
  | none => (sent, [])
  | some t =>
      if isEventDay holidays today sub then
        if (t.1 : ℤ) * 60 + (t.2 : ℤ) - nowMin = 15 then
          if (sub.id, today) ∈ sent then (sent, [])
          else ((sub.id, today) :: sent, [(sub.id, today)])
        else (sent, [])
      else (sent, [])

/-- Part 2 of `checkNotifications`: the `forEach` over the subject list,
threading the sent set and concatenating the fired keys in order. -/
def classRemindersRun (holidays : List ℕ) (today : ℕ) (nowMin : ℤ) :
    List Subject → List (String × ℕ) → List (String × ℕ) × List (String × ℕ)
  | [], sent => (sent, [])
  | sub :: rest, sent =>
      let p := classReminderStep holidays today nowMin sent sub
      let q := classRemindersRun holidays today nowMin rest p.1
      (q.1, p.2 ++ q.2)

/-- One call of `checkNotifications` (`src/unnamed/part_000`): the cache
reset, then the daily reminder, then (when class reminders are enabled)
the per-subject class reminders.  Returns the updated refs and the class
reminder keys fired by this call. -/
def checkNotifications (holidays : List ℕ) (settings : AppSettings)
    (subjects : List Subject) (today : ℕ) (nowH nowM : ℕ) (st : NotifState) :
    NotifState × List (String × ℕ) :=
  let st1 := clearIfDayChanged today st
  let st2 := dailyStep settings today nowH nowM st1
  if settings.classReminders then
    let p := classRemindersRun holidays today ((nowH : ℤ) * 60 + (nowM : ℤ))
      subjects st2.sent
    ({ lastDaily := st2.lastDaily, sent := p.1 }, p.2)
  else (st2, [])

/-- A run of the notification check loop: `checkNotifications` is invoked
once per tick `(today, hours, minutes)`, threading the refs; the fired
class-reminder keys of all calls are concatenated. -/
def runChecks (holidays : List ℕ) (settings : AppSettings)
    (subjects : List Subject) :
    List (ℕ × ℕ × ℕ) → NotifState → NotifState × List (String × ℕ)
  | [], st => (st, [])
  | t :: rest, st =>
      let p := checkNotifications holidays settings subjects t.1 t.2.1 t.2.2 st
      let q := runChecks holidays settings subjects rest p.1
      (q.1, p.2 ++ q.2)

/-! ## Shared helper lemmas -/

/-- A fresh identifier is never the empty string. -/
theorem freshId_ne_empty (seed : String) : freshId seed ≠ "" := by
  intro h
  have h2 := congrArg String.length h
  simp [freshId, String.length_append] at h2
  exact absurd h2.1 (by decide)

@[simp] theorem calculate_status (holidays : List ℕ) (chaos : ℚ) (s : Subject)
    (target : ℚ) (today : ℕ) :
    (calculate holidays chaos s target today).status =
      statusOf holidays chaos s target today := rfl

@[simp] theorem calculate_percentage (holidays : List ℕ) (chaos : ℚ) (s : Subject)
    (target : ℚ) (today : ℕ) :
    (calculate holidays chaos s target today).percentage = percentageOf s := rfl

@[simp] theorem calculate_maxPossible (holidays : List ℕ) (chaos : ℚ) (s : Subject)
    (target : ℚ) (today : ℕ) :
    (calculate holidays chaos s target today).maxPossiblePercentage =
      maxPossibleOf holidays chaos s today := rfl

@[simp] theorem calculate_classesLeftRaw (holidays : List ℕ) (chaos : ℚ) (s : Subject)
    (target : ℚ) (today : ℕ) :
    (calculate holidays chaos s target today).classesLeftRaw =
      classesLeftRawOf holidays chaos s today := rfl

@[simp] theorem calculate_totalSemester (holidays : List ℕ) (chaos : ℚ) (s : Subject)
    (target : ℚ) (today : ℕ) :
    (calculate holidays chaos s target today).totalSemesterClasses =
      totalSemesterOf holidays chaos s today := rfl

@[simp] theorem calculate_bunks (holidays : List ℕ) (chaos : ℚ) (s : Subject)
    (target : ℚ) (today : ℕ) :
    (calculate holidays chaos s target today).bunksAvailable =
      bunksOf holidays chaos s target today := rfl

@[simp] theorem calculate_recover (holidays : List ℕ) (chaos : ℚ) (s : Subject)
    (target : ℚ) (today : ℕ) :
    (calculate holidays chaos s target today).classesToRecover =
      recoverOf holidays chaos s target today := rfl

/-- A concrete subject used to instantiate hypotheses: Mondays and Fridays,
term days 0 through 30, nothing attended yet. -/
def sampleSubject : Subject :=
  { id := "s1"
    name := "Algebra"
    attended := 0
    total := 0
    schedule := [DayOfWeek.Monday, DayOfWeek.Friday]
    startDate := 0
    endDate := 30
    startTime := some (8, 0)
    history := []
    initialAttended := none
    initialTotal := none }

/-! ## Claim theorems -/

/-- C8: The weekday encoding used by `subject.schedule` assigns 0 to
Sunday through 6 to Saturday, in that order, matching the `DayOfWeek`
enumeration of `src/types.ts`; distinct weekdays get distinct values. -/
theorem dayOfWeek_encoding :
    DayOfWeek.toNat .Sunday = 0 ∧ DayOfWeek.toNat .Monday = 1 ∧
    DayOfWeek.toNat .Tuesday = 2 ∧ DayOfWeek.toNat .Wednesday = 3 ∧
    DayOfWeek.toNat .Thursday = 4 ∧ DayOfWeek.toNat .Friday = 5 ∧
    DayOfWeek.toNat .Saturday = 6 ∧ Function.Injective DayOfWeek.toNat :=
  ⟨rfl, rfl, rfl, rfl, rfl, rfl, rfl, by
    intro a b h
    cases a <;> cases b <;> simp_all [DayOfWeek.toNat]⟩

/-- C9: The configuration constants equal their specified defaults —
`CHAOS_FACTOR = 0.95` and `TARGET_PERCENTAGE = 0.75` — and the default
`AppSettings.targetPercentage` used when no saved settings exist is
0.75. -/
theorem config_defaults :
    CHAOS_FACTOR = 95 / 100 ∧ TARGET_PERCENTAGE = 75 / 100 ∧
    defaultAppSettings.targetPercentage = 75 / 100 := by
  refine ⟨?_, ?_, ?_⟩ <;> norm_num [CHAOS_FACTOR, TARGET_PERCENTAGE, defaultAppSettings]

/-- C2: `isEventDay date subject` reports the date valid iff the date lies
within `[startDate, endDate]` inclusive, the local weekday of the date is
a member of `subject.schedule`, and the date is not in the holiday list;
in particular a listed holiday that matches the weekly schedule is
reported invalid. -/
theorem isEventDay_valid_iff (holidays : List ℕ) (date : ℕ) (s : Subject) :
    (isEventDay holidays date s = true ↔
      (s.startDate ≤ date ∧ date ≤ s.endDate ∧
        weekdayOf date ∈ s.schedule.map DayOfWeek.toNat ∧ date ∉ holidays)) ∧
    (date ∈ holidays → isEventDay holidays date s = false) := by
  have hmain : isEventDay holidays date s = true ↔
      (s.startDate ≤ date ∧ date ≤ s.endDate ∧
        weekdayOf date ∈ s.schedule.map DayOfWeek.toNat ∧ date ∉ holidays) := by
    unfold isEventDay
    by_cases hrange : date < s.startDate ∨ s.endDate < date
    · rw [if_pos hrange]
      simp only [Bool.false_eq_true, false_iff]
      rintro ⟨ha, hb, -, -⟩
      omega
    · rw [if_neg hrange]
      by_cases hsched : (s.schedule.map DayOfWeek.toNat).contains (weekdayOf date) = true
      · rw [if_neg (not_not_intro hsched)]
        by_cases hhol : holidays.contains date = true
        · rw [if_pos hhol]
          simp only [Bool.false_eq_true, false_iff]
          rintro ⟨-, -, -, hd⟩
          exact hd (List.elem_iff.mp hhol)
        · rw [if_neg hhol]
          push_neg at hrange
          exact ⟨fun _ => ⟨hrange.1, hrange.2, List.elem_iff.mp hsched,
            fun hm => hhol (List.elem_iff.mpr hm)⟩, fun _ => rfl⟩
      · rw [if_pos hsched]
        simp only [Bool.false_eq_true, false_iff]
        rintro ⟨-, -, hc, -⟩
        exact hsched (List.elem_iff.mpr hc)
  refine ⟨hmain, fun hmem => ?_⟩
  cases hEv : isEventDay holidays date s
  · rfl
  · exact absurd hmem (hmain.mp hEv).2.2.2

/-- Witness for C2 at a concrete input: day 5 (a Friday) is a listed
holiday matching the sample subject's schedule, and `isEventDay` reports
it invalid. -/
theorem isEventDay_valid_iff_witness :
    (5 : ℕ) ∈ [5] ∧ isEventDay [5] 5 sampleSubject = false :=
  ⟨by decide, (isEventDay_valid_iff [5] 5 sampleSubject).2 (by decide)⟩

/-- C1: `calculate` classifies the result `IMPOSSIBLE` exactly when
`maxPossiblePercentage < targetPercentage`; otherwise `DANGER` exactly
when `percentage < targetPercentage`; otherwise `SAFE`. -/
theorem calculate_status_classification (holidays : List ℕ) (chaos : ℚ)
    (s : Subject) (target : ℚ) (today : ℕ) :
    ((calculate holidays chaos s target today).status = .IMPOSSIBLE ↔
      (calculate holidays chaos s target today).maxPossiblePercentage < target) ∧
    ((calculate holidays chaos s target today).status = .DANGER ↔
      (target ≤ (calculate holidays chaos s target today).maxPossiblePercentage ∧
        (calculate holidays chaos s target today).percentage < target)) ∧
    ((calculate holidays chaos s target today).status = .SAFE ↔
      (target ≤ (calculate holidays chaos s target today).maxPossiblePercentage ∧
        target ≤ (calculate holidays chaos s target today).percentage)) := by
  simp only [calculate_status, calculate_percentage, calculate_maxPossible]
  unfold statusOf
  split_ifs with h1 h2 <;> simp_all [not_lt]

/-- C3: `calculate` never faults on a zero denominator: `percentage` is
`attended / total` and 0 when `total = 0`, and `maxPossiblePercentage` is
`(attended + classesLeftRaw) / totalSemesterClasses` and 0 when
`totalSemesterClasses = 0`. -/
theorem calculate_no_div_by_zero (holidays : List ℕ) (chaos : ℚ)
    (s : Subject) (target : ℚ) (today : ℕ) :
    (s.total = 0 → (calculate holidays chaos s target today).percentage = 0) ∧
    (s.total ≠ 0 → (calculate holidays chaos s target today).percentage =
      (s.attended : ℚ) / (s.total : ℚ)) ∧
    ((calculate holidays chaos s target today).totalSemesterClasses = 0 →
      (calculate holidays chaos s target today).maxPossiblePercentage = 0) ∧
    ((calculate holidays chaos s target today).totalSemesterClasses ≠ 0 →
      (calculate holidays chaos s target today).maxPossiblePercentage =
        ((s.attended : ℚ) + ((calculate holidays chaos s target today).classesLeftRaw : ℚ)) /
          ((calculate holidays chaos s target today).totalSemesterClasses : ℚ)) := by
  simp only [calculate_percentage, calculate_maxPossible, calculate_totalSemester,
    calculate_classesLeftRaw]
  refine ⟨?_, ?_, ?_, ?_⟩ <;> intro h
  · simp [percentageOf, h]
  · simp [percentageOf, h]
  · simp [maxPossibleOf, h]
  · simp [maxPossibleOf, h]

/-- Witness for C3 at concrete inputs: the sample subject has
`total = 0`, so its percentage is 0; with one class attended out of two,
the percentage is 1/2. -/
theorem calculate_no_div_by_zero_witness :
    (calculate [] 1 sampleSubject (3 / 4) 40).percentage = 0 ∧
    (calculate [] 1 { sampleSubject with attended := 1, total := 2 } (3 / 4) 40).percentage
      = (1 : ℚ) / 2 := by
  constructor
  · exact (calculate_no_div_by_zero [] 1 sampleSubject (3 / 4) 40).1 rfl
  · have h := (calculate_no_div_by_zero [] 1
      { sampleSubject with attended := 1, total := 2 } (3 / 4) 40).2.1 (by decide)
    rw [h]
    norm_num

/-- C10: at startup, absent or non-array persisted subject data
initialises the subject list to `[]`, and every loaded subject has a
non-empty `id` (a fresh one is assigned whenever the stored record lacks
one). -/
theorem initSubjects_safe (seeds : ℕ → String) :
    (initSubjects .missing seeds = [] ∧ initSubjects .nonArray seeds = []) ∧
    (∀ saved sub, sub ∈ initSubjects saved seeds → sub.id ≠ "") := by
  refine ⟨⟨rfl, rfl⟩, ?_⟩
  intro saved sub hmem
  cases saved with
  | missing => simp [initSubjects] at hmem
  | nonArray => simp [initSubjects] at hmem
  | array xs =>
      simp only [initSubjects, List.mem_map] at hmem
      obtain ⟨p, -, rfl⟩ := hmem
      show (if p.2.id = "" then freshId (seeds p.1) else p.2.id) ≠ ""
      by_cases h : p.2.id = ""
      · rw [if_pos h]
        exact freshId_ne_empty (seeds p.1)
      · rw [if_neg h]
        exact h

/-- Witness for C10 at a concrete input: a stored record with an empty id
loads with the non-empty fresh id. -/
theorem initSubjects_safe_witness :
    ({ sampleSubject with id := "restored-x" } ∈
      initSubjects (.array [{ sampleSubject with id := "" }]) (fun _ => "x")) ∧
    ({ sampleSubject with id := "restored-x" } : Subject).id ≠ "" := by
  have hmem : { sampleSubject with id := "restored-x" } ∈
      initSubjects (.array [{ sampleSubject with id := "" }]) (fun _ => "x") := by
    simp [initSubjects, freshId, sampleSubject, List.enum]
  exact ⟨hmem, (initSubjects_safe (fun _ => "x")).2
    (.array [{ sampleSubject with id := "" }]) _ hmem⟩

/-- Arithmetic core of the bunk bound: for a positive target and a held
count `t > 0`, staying at target after `k` more skips is equivalent to the
integer bound `t + k ≤ ⌊attended / target⌋`. -/
theorem target_le_div_iff_le_floor (a t k : ℕ) (target : ℚ) (ht : 0 < target)
    (htot : 0 < t) :
    (target ≤ (a : ℚ) / ((t : ℚ) + (k : ℚ))) ↔
      ((t : ℤ) + (k : ℤ) ≤ ⌊(a : ℚ) / target⌋) := by
  have h1 : (0 : ℚ) < (t : ℚ) := by exact_mod_cast htot
  have h2 : (0 : ℚ) ≤ (k : ℚ) := Nat.cast_nonneg k
  have hpos : (0 : ℚ) < (t : ℚ) + (k : ℚ) := by linarith
  rw [le_div_iff₀ hpos, Int.le_floor]
  push_cast
  rw [le_div_iff₀ ht]
  constructor <;> intro h <;> linarith

/-- C6: `classesLeftRaw` is the floor of `CHAOS_FACTOR` times the count of
valid class days strictly after `today` through `subject.endDate`; when
`today` is after `endDate` that count is 0, so `classesLeftRaw`,
`bunksAvailable` and `classesToRecover` are all 0. -/
theorem classesLeftRaw_spec (holidays : List ℕ) (s : Subject) (target : ℚ)
    (today : ℕ) :
    ((calculate holidays CHAOS_FACTOR s target today).classesLeftRaw =
      (⌊CHAOS_FACTOR * (countValidDays holidays s (today + 1) s.endDate : ℚ)⌋).toNat) ∧
    (s.endDate < today →
      (calculate holidays CHAOS_FACTOR s target today).classesLeftRaw = 0 ∧
      (calculate holidays CHAOS_FACTOR s target today).bunksAvailable = 0 ∧
      (calculate holidays CHAOS_FACTOR s target today).classesToRecover = 0) := by
  have hL : s.endDate < today → classesLeftRawOf holidays CHAOS_FACTOR s today = 0 := by
    intro h
    unfold classesLeftRawOf futureDaysOf countValidDays
    have h0 : s.endDate + 1 - (today + 1) = 0 := by omega
    rw [h0]
    simp [List.range']
  refine ⟨rfl, fun h => ⟨?_, ?_, ?_⟩⟩
  · simpa using hL h
  · simp only [calculate_bunks]
    unfold bunksOf
    rw [hL h]
    split_ifs
    · rw [Int.toNat_eq_zero]
      exact max_le le_rfl (by simp)
    · rfl
  · simp only [calculate_recover]
    unfold recoverOf
    rw [hL h]
    split_ifs
    · rw [Int.toNat_eq_zero]
      simp
    · rfl

/-- Witness for C6 at a concrete input: the sample subject's term ends on
day 30, so as of day 40 no classes are left. -/
theorem classesLeftRaw_spec_witness :
    sampleSubject.endDate < 40 ∧
    (calculate [] CHAOS_FACTOR sampleSubject (3 / 4) 40).classesLeftRaw = 0 :=
  ⟨by decide, ((classesLeftRaw_spec [] sampleSubject (3 / 4) 40).2 (by decide)).1⟩

/-- C4: whenever the current percentage is at or above the target (with a
positive target, per the §4.2 input contract), `bunksAvailable` is the
greatest `k ≥ 0` with `attended / (total + k) ≥ target` and
`k ≤ classesLeftRaw`, i.e. `⌊attended / target − total⌋` clamped to
`[0, classesLeftRaw]`. -/
theorem bunksAvailable_greatest (holidays : List ℕ) (chaos : ℚ) (s : Subject)
    (target : ℚ) (today : ℕ) (ht : 0 < target)
    (hp : target ≤ (calculate holidays chaos s target today).percentage) :
    (target ≤ (s.attended : ℚ) /
      ((s.total : ℚ) + ((calculate holidays chaos s target today).bunksAvailable : ℚ))) ∧
    ((calculate holidays chaos s target today).bunksAvailable ≤
      (calculate holidays chaos s target today).classesLeftRaw) ∧
    (∀ k : ℕ, target ≤ (s.attended : ℚ) / ((s.total : ℚ) + (k : ℚ)) →
      k ≤ (calculate holidays chaos s target today).classesLeftRaw →
      k ≤ (calculate holidays chaos s target today).bunksAvailable) ∧
    (((calculate holidays chaos s target today).bunksAvailable : ℤ) =
      max 0 (min (⌊(s.attended : ℚ) / target⌋ - (s.total : ℤ))
        ((calculate holidays chaos s target today).classesLeftRaw : ℤ))) := by
  simp only [calculate_percentage] at hp
  simp only [calculate_bunks, calculate_classesLeftRaw]
  have htot : 0 < s.total := by
    rcases Nat.eq_zero_or_pos s.total with h0 | h0
    · rw [percentageOf, if_pos h0] at hp
      exact absurd (lt_of_lt_of_le ht hp) (lt_irrefl 0)
    · exact h0
  have hperc : percentageOf s = (s.attended : ℚ) / (s.total : ℚ) := by
    rw [percentageOf, if_neg (Nat.pos_iff_ne_zero.mp htot)]
  have hiff : ∀ k : ℕ, (target ≤ (s.attended : ℚ) / ((s.total : ℚ) + (k : ℚ))) ↔
      ((k : ℤ) ≤ ⌊(s.attended : ℚ) / target⌋ - (s.total : ℤ)) := by
    intro k
    rw [target_le_div_iff_le_floor s.attended s.total k target ht htot]
    omega
  have hF0 : (0 : ℤ) ≤ ⌊(s.attended : ℚ) / target⌋ - (s.total : ℤ) := by
    have h := (hiff 0).mp (by simpa [hperc] using hp)
    simpa using h
  set F : ℤ := ⌊(s.attended : ℚ) / target⌋ - (s.total : ℤ) with hFdef
  set L : ℕ := classesLeftRawOf holidays chaos s today with hLdef
  have hmin0 : (0 : ℤ) ≤ min F (L : ℤ) := le_min hF0 (Int.natCast_nonneg L)
  have hbval : bunksOf holidays chaos s target today = (min F (L : ℤ)).toNat := by
    unfold bunksOf
    rw [if_pos hp, ← hLdef, ← hFdef, max_eq_right hmin0]
  have hcast : ((bunksOf holidays chaos s target today : ℕ) : ℤ) = min F (L : ℤ) := by
    rw [hbval, Int.toNat_of_nonneg hmin0]
  refine ⟨?_, ?_, ?_, ?_⟩
  · refine (hiff _).mpr ?_
    rw [hcast]
    exact le_trans (min_le_left _ _) le_rfl
  · have h := hcast ▸ min_le_right F (L : ℤ)
    exact_mod_cast h
  · intro k hk hkL
    have h1 : (k : ℤ) ≤ F := (hiff k).mp hk
    have h2 : (k : ℤ) ≤ (L : ℤ) := by exact_mod_cast hkL
    have h3 : (k : ℤ) ≤ min F (L : ℤ) := le_min h1 h2
    rw [← hcast] at h3
    exact_mod_cast h3
  · rw [hcast, max_eq_right hmin0]

/-- A subject comfortably above target used to instantiate the bunk
theorem. -/
def safeSubject : Subject := { sampleSubject with attended := 9, total := 10 }

/-- Witness for C4 at a concrete input: nine of ten classes attended
against a 3/4 target, so skips are available yet bounded by the remaining
classes. -/
theorem bunksAvailable_greatest_witness :
    ((0 : ℚ) < 3 / 4) ∧
    ((3 / 4 : ℚ) ≤ (calculate [] 1 safeSubject (3 / 4) 0).percentage) ∧
    ((calculate [] 1 safeSubject (3 / 4) 0).bunksAvailable ≤
      (calculate [] 1 safeSubject (3 / 4) 0).classesLeftRaw) := by
  have ht : (0 : ℚ) < 3 / 4 := by norm_num
  have hp : (3 / 4 : ℚ) ≤ (calculate [] 1 safeSubject (3 / 4) 0).percentage := by
    simp only [calculate_percentage]
    rw [percentageOf]
    norm_num [safeSubject, sampleSubject]
  exact ⟨ht, hp, (bunksAvailable_greatest [] 1 safeSubject (3 / 4) 0 ht hp).2.1⟩

/-- Arithmetic core of the recovery bound: for a target below 1 and a held
count `t > 0`, reaching target after attending `n` more classes is
equivalent to the integer bound `⌈(target·t − a) / (1 − target)⌉ ≤ n`. -/
theorem target_le_recover_iff (a t n : ℕ) (target : ℚ) (ht1 : target < 1)
    (htot : 0 < t) :
    (target ≤ ((a : ℚ) + (n : ℚ)) / ((t : ℚ) + (n : ℚ))) ↔
      (⌈(target * (t : ℚ) - (a : ℚ)) / (1 - target)⌉ ≤ (n : ℤ)) := by
  have h1 : (0 : ℚ) < (t : ℚ) := by exact_mod_cast htot
  have h2 : (0 : ℚ) ≤ (n : ℚ) := Nat.cast_nonneg n
  have hpos : (0 : ℚ) < (t : ℚ) + (n : ℚ) := by linarith
  have h1t : (0 : ℚ) < 1 - target := by linarith
  rw [le_div_iff₀ hpos, Int.ceil_le]
  push_cast
  rw [div_le_iff₀ h1t]
  constructor <;> intro h <;> linarith

/-- Counterexample to C5 as stated: for the fresh sample subject
(`attended = total = 0`) with target 3/4 as of day 0, the percentage is
below target and the code reports `classesToRecover = 0`, yet attending 0
classes does not reach the target while attending 1 does (and at least 1
class remains) — so the least satisfying `n` clamped to `classesLeftRaw`
is 1, not 0. -/
theorem classesToRecover_claim_counterexample :
    ((calculate [] 1 sampleSubject (3 / 4) 0).percentage < 3 / 4) ∧
    ((calculate [] 1 sampleSubject (3 / 4) 0).classesToRecover = 0) ∧
    ¬ ((3 / 4 : ℚ) ≤ ((sampleSubject.attended : ℚ) + ((0 : ℕ) : ℚ)) /
        ((sampleSubject.total : ℚ) + ((0 : ℕ) : ℚ))) ∧
    ((3 / 4 : ℚ) ≤ ((sampleSubject.attended : ℚ) + ((1 : ℕ) : ℚ)) /
        ((sampleSubject.total : ℚ) + ((1 : ℕ) : ℚ))) ∧
    (1 ≤ (calculate [] 1 sampleSubject (3 / 4) 0).classesLeftRaw) := by
  have hfuture : futureDaysOf [] sampleSubject 0 = 9 := by decide
  have hL : classesLeftRawOf [] 1 sampleSubject 0 = 9 := by
    rw [classesLeftRawOf, hfuture]
    norm_num
    decide
  have hperc : percentageOf sampleSubject = 0 := by
    rw [percentageOf]
    simp [sampleSubject]
  refine ⟨?_, ?_, ?_, ?_, ?_⟩
  · simp only [calculate_percentage]
    rw [hperc]
    norm_num
  · simp only [calculate_recover]
    rw [recoverOf, if_pos (by rw [hperc]; norm_num), hL]
    norm_num [sampleSubject]
  · simp [sampleSubject]
  · simp [sampleSubject]
    norm_num
  · simp only [calculate_classesLeftRaw]
    rw [hL]
    norm_num

/-- C5 (amended): whenever the current percentage is below the target,
the target lies in `(0,1)` (the §4.2 input contract, excluding 1 where
the recovery formula's denominator vanishes) and at least one class has
been held, `classesToRecover` is the least `n ≥ 0` with
`(attended + n) / (total + n) ≥ target` (reaching the target exactly
counts, `≥` not `>`), clamped to at most `classesLeftRaw`. -/
theorem classesToRecover_least (holidays : List ℕ) (chaos : ℚ) (s : Subject)
    (target : ℚ) (today : ℕ) (_ht : 0 < target) (ht1 : target < 1)
    (htot : 0 < s.total)
    (hp : (calculate holidays chaos s target today).percentage < target) :
    ∃ n0 : ℕ,
      (target ≤ ((s.attended : ℚ) + (n0 : ℚ)) / ((s.total : ℚ) + (n0 : ℚ))) ∧
      (∀ m : ℕ, m < n0 →
        ¬ (target ≤ ((s.attended : ℚ) + (m : ℚ)) / ((s.total : ℚ) + (m : ℚ)))) ∧
      ((calculate holidays chaos s target today).classesToRecover =
        min n0 (calculate holidays chaos s target today).classesLeftRaw) := by
  simp only [calculate_percentage] at hp
  simp only [calculate_recover, calculate_classesLeftRaw]
  set C : ℤ := ⌈(target * (s.total : ℚ) - (s.attended : ℚ)) / (1 - target)⌉ with hCdef
  set L : ℕ := classesLeftRawOf holidays chaos s today with hLdef
  refine ⟨(max 0 C).toNat, ?_, ?_, ?_⟩
  · apply (target_le_recover_iff s.attended s.total _ target ht1 htot).mpr
    rw [← hCdef, Int.toNat_of_nonneg (le_max_left 0 C)]
    exact le_max_right 0 C
  · intro m hm hsat
    have h1 : C ≤ (m : ℤ) := by
      have := (target_le_recover_iff s.attended s.total m target ht1 htot).mp hsat
      rw [← hCdef] at this
      exact this
    have h2 : (max 0 C : ℤ) ≤ (m : ℤ) := max_le (Int.natCast_nonneg m) h1
    omega
  · rw [recoverOf, if_pos hp, ← hCdef, ← hLdef]
    omega

/-- A subject below target used to instantiate the recovery theorem. -/
def recoverSubject : Subject := { sampleSubject with attended := 1, total := 2 }

/-- Witness for C5's amended theorem at a concrete input: one of two
classes attended against a 3/4 target. -/
theorem classesToRecover_least_witness :
    ((0 : ℚ) < 3 / 4) ∧ ((3 / 4 : ℚ) < 1) ∧ (0 < recoverSubject.total) ∧
    ((calculate [] 1 recoverSubject (3 / 4) 0).percentage < 3 / 4) ∧
    (∃ n0 : ℕ,
      ((3 / 4 : ℚ) ≤ ((recoverSubject.attended : ℚ) + (n0 : ℚ)) /
        ((recoverSubject.total : ℚ) + (n0 : ℚ))) ∧
      (∀ m : ℕ, m < n0 →
        ¬ ((3 / 4 : ℚ) ≤ ((recoverSubject.attended : ℚ) + (m : ℚ)) /
          ((recoverSubject.total : ℚ) + (m : ℚ)))) ∧
      ((calculate [] 1 recoverSubject (3 / 4) 0).classesToRecover =
        min n0 (calculate [] 1 recoverSubject (3 / 4) 0).classesLeftRaw)) := by
  have ht : (0 : ℚ) < 3 / 4 := by norm_num
  have ht1 : (3 / 4 : ℚ) < 1 := by norm_num
  have htot : 0 < recoverSubject.total := by decide
  have hp : (calculate [] 1 recoverSubject (3 / 4) 0).percentage < 3 / 4 := by
    simp only [calculate_percentage]
    rw [percentageOf]
    norm_num [recoverSubject, sampleSubject]
  exact ⟨ht, ht1, htot, hp,
    classesToRecover_least [] 1 recoverSubject (3 / 4) 0 ht ht1 htot hp⟩

/-! ### Notification dedup invariants -/

/-- A single subject's class-reminder step either leaves the sent set
unchanged and fires nothing, or fires exactly its key, which was absent,
and prepends it to the sent set. -/
theorem classReminderStep_cases (holidays : List ℕ) (today : ℕ) (nowMin : ℤ)
    (sent : List (String × ℕ)) (sub : Subject) :
    (classReminderStep holidays today nowMin sent sub = (sent, [])) ∨
    ((sub.id, today) ∉ sent ∧
      classReminderStep holidays today nowMin sent sub =
        ((sub.id, today) :: sent, [(sub.id, today)])) := by
  unfold classReminderStep
  cases h : sub.startTime with
  | none => exact Or.inl rfl
  | some t =>
      simp only []
      split_ifs with h1 h2 h3
      · exact Or.inl rfl
      · exact Or.inr ⟨h3, rfl⟩
      · exact Or.inl rfl
      · exact Or.inl rfl

/-- Invariants of the `forEach` over the subjects: the sent set only
grows, a key already sent is never fired, each key is fired at most once,
and every fired key ends up in the sent set. -/
theorem classRemindersRun_dedup (holidays : List ℕ) (today : ℕ) (nowMin : ℤ)
    (k : String × ℕ) :
    ∀ (subs : List Subject) (sent : List (String × ℕ)),
      (∀ x, x ∈ sent → x ∈ (classRemindersRun holidays today nowMin subs sent).1) ∧
      (k ∈ sent → k ∉ (classRemindersRun holidays today nowMin subs sent).2) ∧
      ((classRemindersRun holidays today nowMin subs sent).2.count k ≤ 1) ∧
      (k ∈ (classRemindersRun holidays today nowMin subs sent).2 →
        k ∈ (classRemindersRun holidays today nowMin subs sent).1) := by
  intro subs
  induction subs with
  | nil =>
      intro sent
      refine ⟨fun x hx => hx, fun h => ?_, ?_, fun h => ?_⟩ <;>
        simp_all [classRemindersRun]
  | cons sub rest ih =>
      intro sent
      rcases classReminderStep_cases holidays today nowMin sent sub with
        hstep | ⟨hnot, hstep⟩
      · have hrun : classRemindersRun holidays today nowMin (sub :: rest) sent =
            ((classRemindersRun holidays today nowMin rest sent).1,
              (classRemindersRun holidays today nowMin rest sent).2) := by
          simp [classRemindersRun, hstep]
        rw [hrun]
        exact ih sent
      · have hrun : classRemindersRun holidays today nowMin (sub :: rest) sent =
            ((classRemindersRun holidays today nowMin rest ((sub.id, today) :: sent)).1,
              (sub.id, today) ::
                (classRemindersRun holidays today nowMin rest ((sub.id, today) :: sent)).2) := by
          simp [classRemindersRun, hstep]
        rw [hrun]
        obtain ⟨ih1, ih2, ih3, ih4⟩ := ih ((sub.id, today) :: sent)
        refine ⟨?_, ?_, ?_, ?_⟩
        · intro x hx
          exact ih1 x (List.mem_cons_of_mem _ hx)
        · intro hk hmem
          rcases List.mem_cons.mp hmem with hk0 | hk2
          · exact hnot (hk0 ▸ hk)
          · exact ih2 (List.mem_cons_of_mem _ hk) hk2
        · by_cases hk0 : k = (sub.id, today)
          · subst hk0
            rw [List.count_cons_self,
              List.count_eq_zero.mpr (ih2 (List.mem_cons_self _ _))]
          · rw [List.count_cons_of_ne hk0]
            exact ih3
        · intro hmem
          rcases List.mem_cons.mp hmem with hk0 | hk2
          · exact ih1 _ (by rw [hk0]; exact List.mem_cons_self _ _)
          · exact ih4 hk2

/-- When no daily reminder has been recorded or it was recorded today, the
cache reset leaves the state unchanged. -/
theorem clearIfDayChanged_id (today : ℕ) (st : NotifState)
    (hlast : st.lastDaily = none ∨ st.lastDaily = some today) :
    clearIfDayChanged today st = st := by
  unfold clearIfDayChanged
  rcases hlast with h | h
  · rw [h]
  · rw [h]
    simp

/-- The daily-reminder step never touches the sent set. -/
theorem dailyStep_sent (settings : AppSettings) (today : ℕ) (nowH nowM : ℕ)
    (st : NotifState) :
    (dailyStep settings today nowH nowM st).sent = st.sent := by
  unfold dailyStep
  cases h : settings.dailyReminderTime <;> dsimp only <;> split_ifs <;> rfl

/-- The daily-reminder step keeps the last-daily marker at `none` or
today. -/
theorem dailyStep_lastDaily (settings : AppSettings) (today : ℕ) (nowH nowM : ℕ)
    (st : NotifState)
    (hlast : st.lastDaily = none ∨ st.lastDaily = some today) :
    (dailyStep settings today nowH nowM st).lastDaily = none ∨
      (dailyStep settings today nowH nowM st).lastDaily = some today := by
  unfold dailyStep
  cases h : settings.dailyReminderTime <;> dsimp only <;> split_ifs <;> simp_all

/-- One `checkNotifications` call, starting from a state whose last-daily
marker is `none` or today: it preserves that invariant, only grows the
sent set, never re-fires an already-sent key, fires each key at most once,
and records every fired key in the sent set. -/
theorem checkNotifications_dedup (holidays : List ℕ) (settings : AppSettings)
    (subjects : List Subject) (today : ℕ) (nowH nowM : ℕ) (st : NotifState)
    (k : String × ℕ)
    (hlast : st.lastDaily = none ∨ st.lastDaily = some today) :
    ((checkNotifications holidays settings subjects today nowH nowM st).1.lastDaily = none ∨
      (checkNotifications holidays settings subjects today nowH nowM st).1.lastDaily =
        some today) ∧
    (∀ x, x ∈ st.sent →
      x ∈ (checkNotifications holidays settings subjects today nowH nowM st).1.sent) ∧
    (k ∈ st.sent →
      k ∉ (checkNotifications holidays settings subjects today nowH nowM st).2) ∧
    ((checkNotifications holidays settings subjects today nowH nowM st).2.count k ≤ 1) ∧
    (k ∈ (checkNotifications holidays settings subjects today nowH nowM st).2 →
      k ∈ (checkNotifications holidays settings subjects today nowH nowM st).1.sent) := by
  have hlast2 := dailyStep_lastDaily settings today nowH nowM st hlast
  unfold checkNotifications
  dsimp only
  rw [clearIfDayChanged_id today st hlast, dailyStep_sent]
  by_cases hcr : settings.classReminders
  · rw [if_pos hcr]
    obtain ⟨h1, h2, h3, h4⟩ :=
      classRemindersRun_dedup holidays today ((nowH : ℤ) * 60 + (nowM : ℤ)) k
        subjects st.sent
    exact ⟨hlast2, h1, h2, h3, h4⟩
  · rw [if_neg hcr]
    refine ⟨hlast2, ?_, ?_, ?_, ?_⟩ <;> simp [dailyStep_sent]

/-- A run of the check loop whose every tick is on day `today`, starting
with the last-daily marker `none` or today: each key is fired at most
once, fired keys are recorded, and sent keys are never re-fired. -/
theorem runChecks_dedup (holidays : List ℕ) (settings : AppSettings)
    (subjects : List Subject) (today : ℕ) :
    ∀ (ticks : List (ℕ × ℕ × ℕ)) (st : NotifState) (k : String × ℕ),
      (∀ t ∈ ticks, t.1 = today) →
      (st.lastDaily = none ∨ st.lastDaily = some today) →
      ((runChecks holidays settings subjects ticks st).2.count k ≤ 1) ∧
      (k ∈ (runChecks holidays settings subjects ticks st).2 →
        k ∈ (runChecks holidays settings subjects ticks st).1.sent) ∧
      (k ∈ st.sent → (runChecks holidays settings subjects ticks st).2.count k = 0) ∧
      (∀ x, x ∈ st.sent → x ∈ (runChecks holidays settings subjects ticks st).1.sent) := by
  intro ticks
  induction ticks with
  | nil =>
      intro st k hdays hlast
      refine ⟨?_, ?_, ?_, ?_⟩ <;> simp [runChecks]
  | cons t rest ih =>
      intro st k hdays hlast
      obtain ⟨td, nh, nm⟩ := t
      have htoday : td = today := hdays (td, nh, nm) (List.mem_cons_self _ _)
      subst htoday
      obtain ⟨hc1, hc2, hc3, hc4, hc5⟩ :=
        checkNotifications_dedup holidays settings subjects td nh nm st k hlast
      obtain ⟨ih1, ih2, ih3, ih4⟩ :=
        ih (checkNotifications holidays settings subjects td nh nm st).1 k
          (fun x hx => hdays x (List.mem_cons_of_mem _ hx)) hc1
      have hrun : runChecks holidays settings subjects ((td, nh, nm) :: rest) st =
          ((runChecks holidays settings subjects rest
              (checkNotifications holidays settings subjects td nh nm st).1).1,
            (checkNotifications holidays settings subjects td nh nm st).2 ++
              (runChecks holidays settings subjects rest
                (checkNotifications holidays settings subjects td nh nm st).1).2) := by
        simp [runChecks]
      rw [hrun]
      refine ⟨?_, ?_, ?_, ?_⟩
      · rw [List.count_append]
        by_cases hmem : k ∈ (checkNotifications holidays settings subjects td nh
            nm st).2
        · have hz : (runChecks holidays settings subjects rest
              (checkNotifications holidays settings subjects td nh nm st).1).2.count
                k = 0 := ih3 (hc5 hmem)
          omega
        · have hz : (checkNotifications holidays settings subjects td nh
              nm st).2.count k = 0 := List.count_eq_zero.mpr hmem
          omega
      · intro hmem
        rcases List.mem_append.mp hmem with h | h
        · exact ih4 k (hc5 h)
        · exact ih2 h
      · intro hk
        rw [List.count_append, List.count_eq_zero.mpr (hc3 hk),
          ih3 (hc2 k hk)]
      · intro x hx
        exact ih4 x (hc2 x hx)

/-- The concrete settings used in the notification scenarios: all
reminders enabled, daily reminder at 20:00, target 3/4. -/
def cexSettings : AppSettings :=
  { notificationsEnabled := true
    dailyReminder := true
    dailyReminderTime := some (20, 0)
    classReminders := true
    targetPercentage := 3 / 4 }

/-- Counterexample to C7 as stated: starting from pristine refs, the daily
reminder fires at 20:00 on day 0; on day 1 (a Monday, class at 08:00) two
checks at 07:45 each fire a class reminder for the same
`(subject id, date)` key — the cache reset removes the day-1 key on the
second check because the last daily reminder still records day 0, even
though the day did not change between the two checks. -/
theorem class_reminder_duplicate_counterexample :
    (runChecks [] cexSettings [sampleSubject]
        [(0, 20, 0), (1, 7, 45), (1, 7, 45)]
        { lastDaily := none, sent := [] }).2.count ("s1", 1) = 2 := by decide

/-- C7 (amended): over every run of the notification check loop whose
ticks all fall on one day and that starts with the last-daily-reminder
marker empty or equal to that day (so the cache reset cannot retrigger),
at most one class reminder fires per (subject id, date) key. -/
theorem class_reminder_once_per_day (holidays : List ℕ) (settings : AppSettings)
    (subjects : List Subject) (today : ℕ) (ticks : List (ℕ × ℕ × ℕ))
    (st : NotifState) (key : String × ℕ)
    (hdays : ∀ t ∈ ticks, t.1 = today)
    (hlast : st.lastDaily = none ∨ st.lastDaily = some today) :
    (runChecks holidays settings subjects ticks st).2.count key ≤ 1 :=
  (runChecks_dedup holidays settings subjects today ticks st key hdays hlast).1

/-- Witness for C7's amended theorem at a concrete input: a single day-1
check at 07:45 fires the sample subject's reminder exactly once. -/
theorem class_reminder_once_per_day_witness :
    (∀ t ∈ [((1 : ℕ), (7 : ℕ), (45 : ℕ))], t.1 = 1) ∧
    (runChecks [] cexSettings [sampleSubject] [(1, 7, 45)]
        { lastDaily := none, sent := [] }).2.count ("s1", 1) ≤ 1 :=
  ⟨by decide,
    class_reminder_once_per_day [] cexSettings [sampleSubject] 1 [(1, 7, 45)]
      { lastDaily := none, sent := [] } ("s1", 1) (by decide) (Or.inl rfl)⟩

end SmartBunk
